import Mathlib

/-!
Verification development for the AI_Search_ backend: a shallow embedding of
the structured-data extractor (`app/services/structured_parser.py`), the
response pipeline (`app/routers/chat.py`), the generation stage
(`app/services/llm.py`) and the job queue manager (`app/services/queue.py`),
together with theorems about the behaviour of those components.

Strings are modelled as Lean `String`/`List Char`; Python regular expressions
are hand-compiled into character-level matching functions that follow the
backtracking semantics of the concrete pattern they embed.  Python `float`
values are modelled as rationals; the values occurring in the matched text are
decimal literals, which the model represents exactly.  Character classes
(`\w`, `\s`, `\d`, `[A-Z]`) are modelled over the ASCII range that the
repository's inputs use.
-/

namespace AISearch

/-! ### Basic character/string helpers -/

/-- Model of the `\s` character class (`Char.isWhitespace` covers space, tab,
carriage return and newline, matching the ASCII part of Python's `\s`). -/
def isWS (c : Char) : Bool := c.isWhitespace

/-- Model of the `\w` character class (`[A-Za-z0-9_]`). -/
def isWordChar (c : Char) : Bool := c.isAlphanum || c == '_'

/-- Numeric value of a list of decimal digit characters. -/
def digitsToNat (ds : List Char) : Nat :=
  ds.foldl (fun a c => a * 10 + (c.toNat - 48)) 0

/-- Value of the regex group `(\d+(?:\.\d+)?)`, i.e. Python `float(value)`,
modelled exactly as a rational number. -/
def parseFloatQ (s : String) : ℚ :=
  let cs := s.data
  let ip := cs.takeWhile Char.isDigit
  match cs.drop ip.length with
  | '.' :: fp =>
      let frac := fp.takeWhile Char.isDigit
      (digitsToNat ip : ℚ) + (digitsToNat frac : ℚ) / (10 : ℚ) ^ frac.length
  | _ => (digitsToNat ip : ℚ)

/-- One starts-with test on character lists. -/
def startsWithChars : List Char → List Char → Bool
  | _, [] => true
  | [], _ :: _ => false
  | c :: cs, p :: ps => c == p && startsWithChars cs ps

/-- Python's `sub in s` substring test on character lists (the empty string
occurs everywhere). -/
def containsChars : List Char → List Char → Bool
  | _, [] => true
  | [], _ :: _ => false
  | c :: rest, sub => startsWithChars (c :: rest) sub || containsChars rest sub

/-- Python's `sub in s` substring test. -/
def containsSubstr (s sub : String) : Bool :=
  containsChars s.data sub.data

/-- Suffix test on character lists. -/
def endsWithChars (cs suf : List Char) : Bool :=
  startsWithChars cs.reverse suf.reverse

/-- Strip whitespace from both ends (Python `str.strip()`). -/
def trimChars (cs : List Char) : List Char :=
  ((cs.dropWhile isWS).reverse.dropWhile isWS).reverse

/-- Python `str.strip()` on strings. -/
def pyStrip (s : String) : String :=
  String.mk (trimChars s.data)

/-- Split a character list at a separator character; `n` separators give
`n + 1` parts (Python `str.split(sep)`). -/
def splitOnCharAux (sep : Char) : List Char → List Char → List (List Char)
  | [], acc => [acc.reverse]
  | c :: rest, acc =>
      if c == sep then acc.reverse :: splitOnCharAux sep rest []
      else splitOnCharAux sep rest (c :: acc)

/-- Lines of a text (the line decomposition used by `re.MULTILINE` anchors
and by Python `text.split('\n')`). -/
def splitLines (cs : List Char) : List (List Char) :=
  splitOnCharAux '\n' cs []

/-- Python `str.split()` with no argument: maximal non-whitespace runs,
empties dropped. -/
def splitWsAux : List Char → List Char → List (List Char)
  | [], acc => if acc.isEmpty then [] else [acc.reverse]
  | c :: rest, acc =>
      if isWS c then
        (if acc.isEmpty then splitWsAux rest [] else acc.reverse :: splitWsAux rest [])
      else splitWsAux rest (c :: acc)

/-- Whitespace-delimited words of a text. -/
def splitWsWords (cs : List Char) : List (List Char) :=
  splitWsAux cs []

/-- Join character lists with a separator character. -/
def joinWithChar (sep : Char) : List (List Char) → List Char
  | [] => []
  | [l] => l
  | l :: rest => l ++ sep :: joinWithChar sep rest

/-- Python `str.replace(old, '')` for non-empty `old`: drop every
non-overlapping occurrence, scanning left to right (each step consumes at
least one character, so the text length bounds the fuel). -/
def dropAllOccurrences (old : List Char) : Nat → List Char → List Char
  | 0, cs => cs
  | _, [] => []
  | fuel + 1, c :: rest =>
      if startsWithChars (c :: rest) old && !old.isEmpty then
        dropAllOccurrences old fuel ((c :: rest).drop old.length)
      else c :: dropAllOccurrences old fuel rest

/-! ### Chart pattern matching (`StructuredDataParser._extract_chart_data`)

The line-anchored pattern is
`^[\-\*]?\s*(.+?):\s*(\d+(?:\.\d+)?)\s*([KMB%]?)\s*$` with `re.MULTILINE`,
attempted at every line start with whitespace elements free to cross
newlines; the inline variant is
`(\w+(?:\s+\w+)*?)\s*:\s*(\d+(?:\.\d+)?)\s*([KMB%]?)` scanned over the whole
text.  Matches are `(name, value, unit)` string triples, exactly the groups
`re.findall` returns. -/

/-- Match `\s*$` in multiline mode: the greedy whitespace run backtracks
(longest first) to a position at the end of the text or just before a
newline; the remainder at the match end is returned.  This is how patterns
ending in `\s*$` can swallow the newline after a matched line. -/
def tailWsEnd (cs : List Char) : Option (List Char) :=
  ((List.range ((cs.takeWhile isWS).length + 1)).reverse).findSome? fun e =>
    match cs.drop e with
    | [] => some []
    | '\n' :: r => some ('\n' :: r)
    | _ => none

/-- Match the tail `\s*(\d+(?:\.\d+)?)\s*([KMB%]?)\s*$` of the line-anchored
chart pattern, whitespace free to cross newlines, returning the value and
unit groups and the remainder at the match end.  The `\s*` before the digits
cannot usefully backtrack (a shorter run leaves whitespace where a digit is
required); the `\s*` before the optional unit backtracks longest first, and
at each split a present unit is preferred over the empty capture. -/
def chartNumTail (cs : List Char) : Option ((String × String) × List Char) :=
  let afterWs := cs.dropWhile isWS
  let ip := afterWs.takeWhile Char.isDigit
  if ip.isEmpty then none else
  let rest1 := afterWs.drop ip.length
  let valRest : List Char × List Char :=
    match rest1 with
    | '.' :: r =>
        let frac := r.takeWhile Char.isDigit
        if frac.isEmpty then (ip, rest1) else (ip ++ '.' :: frac, r.drop frac.length)
    | _ => (ip, rest1)
  let rest2 := valRest.2
  ((List.range ((rest2.takeWhile isWS).length + 1)).reverse).findSome? fun w =>
    let r := rest2.drop w
    let withUnit : Option ((String × String) × List Char) :=
      match r with
      | u :: r2 =>
          if u == 'K' || u == 'M' || u == 'B' || u == '%' then
            (tailWsEnd r2).map fun after => ((String.mk valRest.1, String.mk [u]), after)
          else none
      | [] => none
    match withUnit with
    | some x => some x
    | none => (tailWsEnd r).map fun after => ((String.mk valRest.1, ""), after)

/-- Match `\s*(.+?):` followed by `chartNumTail`: the greedy `\s*` is tried
longest first (it may cross newlines), the lazy `(.+?)` name shortest first
(it may not contain a newline). -/
def chartCoreAt (cs : List Char) : Option ((String × String × String) × List Char) :=
  let wsMax := (cs.takeWhile isWS).length
  ((List.range (wsMax + 1)).reverse).findSome? fun w =>
    let rest := cs.drop w
    (List.range rest.length).findSome? fun k0 =>
      let k := k0 + 1
      let nm := rest.take k
      if nm.all (fun c => c != '\n') && rest.get? k == some ':' then
        match chartNumTail (rest.drop (k + 1)) with
        | some (vu, after) => some ((String.mk nm, vu.1, vu.2), after)
        | none => none
      else none

/-- The full line-anchored chart pattern attempted at a line start: the
optional `[\-\*]?` is consumed when the rest then matches, with backtracking
to the empty alternative. -/
def chartMatchAt (cs : List Char) : Option ((String × String × String) × List Char) :=
  match cs with
  | c :: rest =>
      if c == '-' || c == '*' then
        match chartCoreAt rest with
        | some m => some m
        | none => chartCoreAt cs
      else chartCoreAt cs
  | [] => none

/-- The `re.findall(..., re.MULTILINE)` scan for a line-start anchored
pattern: the pattern is attempted at every line start; a match is recorded
and scanning resumes at the match end (never itself a line start, since the
match ends at `$`); otherwise the scan advances one character.  Every step
consumes at least one character, so the text length bounds the fuel. -/
def anchoredScan (matchAt : List Char → Option (α × List Char)) :
    Nat → Bool → List Char → List α
  | 0, _, _ => []
  | _, _, [] => []
  | fuel + 1, atLineStart, c :: rest =>
      if atLineStart then
        match matchAt (c :: rest) with
        | some (m, after) => m :: anchoredScan matchAt fuel false after
        | none => anchoredScan matchAt fuel (c == '\n') rest
      else anchoredScan matchAt fuel (c == '\n') rest

/-- All matches of the line-anchored chart pattern over a text
(`re.findall(pattern, text, re.MULTILINE)`). -/
def multilineChartMatches (text : List Char) : List (String × String × String) :=
  anchoredScan chartMatchAt text.length true text

/-- Match the inline tail `\s*(\d+(?:\.\d+)?)\s*([KMB%]?)` (no end anchor),
returning value, unit and the remainder after the match. -/
def inlineTail (cs : List Char) : Option (String × String × List Char) :=
  let afterWs := cs.dropWhile isWS
  let ip := afterWs.takeWhile Char.isDigit
  if ip.isEmpty then none else
  let rest1 := afterWs.drop ip.length
  let valRest : List Char × List Char :=
    match rest1 with
    | '.' :: r =>
        let frac := r.takeWhile Char.isDigit
        if frac.isEmpty then (ip, rest1) else (ip ++ '.' :: frac, r.drop frac.length)
    | _ => (ip, rest1)
  let rest3 := valRest.2.dropWhile isWS
  match rest3 with
  | u :: r =>
      if u == 'K' || u == 'M' || u == 'B' || u == '%' then
        some (String.mk valRest.1, String.mk [u], r)
      else some (String.mk valRest.1, "", rest3)
  | [] => some (String.mk valRest.1, "", [])

/-- The lazy repetition `(?:\s+\w+)*?` followed by `\s*:`: fewest iterations
first, each iteration consuming `\s+` then a maximal word run.  Returns the
accumulated name group and the remainder after the colon. -/
def inlineNameLoop : Nat → List Char → List Char → Option (List Char × List Char)
  | fuel, nameAcc, cs =>
    let ws := cs.takeWhile isWS
    let afterWs := cs.drop ws.length
    match afterWs with
    | ':' :: r => some (nameAcc, r)
    | c :: _ =>
        if ws.length > 0 && isWordChar c then
          match fuel with
          | 0 => none
          | fuel' + 1 =>
              let w := afterWs.takeWhile isWordChar
              inlineNameLoop fuel' (nameAcc ++ ws ++ w) (afterWs.drop w.length)
        else none
    | [] => none

/-- Attempt one inline-pattern match anchored at the start of `cs`: a maximal
word run begins the name group (`\w+` cannot usefully backtrack because a
shorter run leaves a word character where `\s+` or `:` is required), then
`inlineNameLoop`, then `inlineTail`.  Returns the match groups and the
remainder of the text after the match. -/
def inlineMatchAt (cs : List Char) : Option ((String × String × String) × List Char) :=
  match cs with
  | c :: _ =>
      if isWordChar c then
        let w0 := cs.takeWhile isWordChar
        match inlineNameLoop cs.length w0 (cs.drop w0.length) with
        | some (name, afterColon) =>
            match inlineTail afterColon with
            | some (v, u, rest) => some ((String.mk name, v, u), rest)
            | none => none
        | none => none
      else none
  | [] => none

/-- Scan for successive non-overlapping inline matches (`re.findall` without
anchors): on failure the scan advances one character, on success it resumes
after the match (every match consumes at least one character). -/
def inlineScan : Nat → List Char → List (String × String × String)
  | 0, _ => []
  | _, [] => []
  | fuel + 1, cs@(_ :: rest) =>
      match inlineMatchAt cs with
      | some (m, after) => m :: inlineScan fuel after
      | none => inlineScan fuel rest

/-- All matches of the inline chart pattern over a text. -/
def inlineChartMatches (text : List Char) : List (String × String × String) :=
  inlineScan text.length text

/-! ### Structured items -/

/-- Entry of a chart `data` list: `{"name": ..., "value": num_value}`. -/
structure ChartPoint where
  name : String
  value : ℚ
deriving DecidableEq

/-- The chart `config` dictionary. -/
structure ChartConfig where
  type : String
  xKey : String
  yKey : String
  title : String
deriving DecidableEq

/-- The structured item variants produced by the extractor: chart, table
(rows as ordered key/value mappings) and card (a single mapping). -/
inductive StructuredItem where
  | chart (data : List ChartPoint) (config : ChartConfig)
  | table (data : List (List (String × String)))
  | card (data : List (String × String))
deriving DecidableEq

/-- Default chart config from `_extract_chart_data`
(`{"type": "bar", "xKey": "name", "yKey": "value", "title": "Data Comparison"}`). -/
def chartDefaultConfig : ChartConfig :=
  ⟨"bar", "name", "value", "Data Comparison"⟩

/-- Unit conversion applied in `_extract_chart_data`: `'K'` scales by 1000,
`'M'` by 1000000, `'B'` by 1000000000, any other captured unit (`'%'` or the
empty capture) leaves the parsed number unchanged. -/
def unitMultiplier (u : String) : ℚ :=
  if u = "K" then 1000
  else if u = "M" then 1000000
  else if u = "B" then 1000000000
  else 1

/-! ### Removal of matched chart lines

`_extract_chart_data` strips each matched line with
`re.sub(rf'^[\-\*]?\s*{name}:\s*{value}\s*{unit}\s*$', '', text, flags=re.MULTILINE)`
where the groups are inserted literally (`re.escape`); a matching line becomes
empty while its newline separator survives. -/

/-- Remainders after matching `\s*LIT` (the literal may itself start with
whitespace), longest whitespace consumption first — the greedy backtracking
order of the engine. -/
def wsLitSplits (lit : List Char) (cs : List Char) : List (List Char) :=
  (((List.range ((cs.takeWhile isWS).length + 1)).reverse).filterMap fun w =>
    let r := cs.drop w
    if startsWithChars r lit then some (r.drop lit.length) else none)

/-- Body of the chart-removal pattern after the optional `[\-\*]?`:
`\s*{name}:\s*{value}\s*{unit}\s*$`, returning the remainder at the match
end. -/
def chartRemovalCoreAt (name value unit : List Char) (cs : List Char) : Option (List Char) :=
  (wsLitSplits name cs).findSome? fun r1 =>
    match r1 with
    | ':' :: r2 =>
        (wsLitSplits value r2).findSome? fun r3 =>
          (wsLitSplits unit r3).findSome? fun r4 => tailWsEnd r4
    | _ => none

/-- The chart-removal pattern
`^[\-\*]?\s*{name}:\s*{value}\s*{unit}\s*$` attempted at a line start,
optional leading `-`/`*` consumed when the rest then matches. -/
def chartRemovalMatchAt (name value unit : List Char) (cs : List Char) : Option (List Char) :=
  match cs with
  | c :: rest =>
      if c == '-' || c == '*' then
        match chartRemovalCoreAt name value unit rest with
        | some r => some r
        | none => chartRemovalCoreAt name value unit cs
      else chartRemovalCoreAt name value unit cs
  | [] => none

/-- Text-level `re.sub(pattern, '', text, flags=re.MULTILINE)`: at each line
start the pattern is attempted; a match is dropped and scanning resumes at
the match end (never itself a line start, since the match ends at `$`).
Every step consumes at least one character, so the text length bounds the
fuel. -/
def removalSub (matchAt : List Char → Option (List Char)) :
    Nat → Bool → List Char → List Char
  | 0, _, cs => cs
  | _, _, [] => []
  | fuel + 1, atLineStart, c :: rest =>
      if atLineStart then
        match matchAt (c :: rest) with
        | some after => removalSub matchAt fuel false after
        | none => c :: removalSub matchAt fuel (c == '\n') rest
      else c :: removalSub matchAt fuel (c == '\n') rest

/-- Apply one chart-removal `re.sub` for a match triple. -/
def applyChartRemoval (m : String × String × String) (text : List Char) : List Char :=
  removalSub (chartRemovalMatchAt m.1.data m.2.1.data m.2.2.data) text.length true text

/-- Embedding of `StructuredDataParser._extract_chart_data` (lines 131-189):
line-anchored matches first; if fewer than 3, retry with the inline variant
and use it when it has at least 3 matches; with at least 3 matches, build the
chart data (name stripped, value converted by unit) and strip the matched
lines from the text; otherwise return `none`. -/
def extractChartData (text : List Char) : Option (String × StructuredItem) :=
  let mlMatches := multilineChartMatches text
  let ms :=
    if mlMatches.length < 3 then
      let im := inlineChartMatches text
      if 3 ≤ im.length then im else mlMatches
    else mlMatches
  if 3 ≤ ms.length then
    let chartData := ms.map fun m =>
      ChartPoint.mk (pyStrip m.1) (parseFloatQ m.2.1 * unitMultiplier m.2.2)
    let cleaned := ms.foldl (fun t m => applyChartRemoval m t) text
    some (String.mk (trimChars cleaned), .chart chartData chartDefaultConfig)
  else none

/-! ### Table pass (`StructuredDataParser._extract_table_data`) -/

/-- Dictionary insertion with Python semantics: an existing key keeps its
position and gets the new value, a new key is appended. -/
def dictInsert (d : List (String × String)) (k v : String) : List (String × String) :=
  if d.any (fun p => p.1 == k) then d.map (fun p => if p.1 == k then (k, v) else p)
  else d ++ [(k, v)]

/-- Build a dictionary from key/value pairs, later pairs overwriting. -/
def dictOfPairs (ps : List (String × String)) : List (String × String) :=
  ps.foldl (fun d p => dictInsert d p.1 p.2) []

/-- The table-line collection loop: a line containing `'|'` whose stripped
form starts with `'|'` is collected (and turns the `in_table` flag on); once
in a table, a blank line stops the scan; any other line is skipped without
stopping. -/
def collectTableLines : List (List Char) → Bool → List (List Char)
  | [], _ => []
  | l :: rest, inTable =>
      if l.any (fun c => c == '|') && startsWithChars (trimChars l) ['|'] then
        l :: collectTableLines rest true
      else if inTable && (trimChars l).isEmpty then []
      else collectTableLines rest inTable

/-- Cells of a table line: `line.split('|')[1:-1]`, each cell stripped. -/
def tableRowCells (l : List Char) : List String :=
  (((splitOnCharAux '|' l []).drop 1).dropLast).map fun c => String.mk (trimChars c)

/-- Embedding of `StructuredDataParser._extract_table_data` (lines 191-243):
needs at least header, separator and one data row; rows made entirely of
cells containing `'-'` are rejected; a data row shorter than the header row
raises `IndexError` in the dict comprehension, caught by the surrounding
`except`, making the whole extraction return `None`; with a non-empty result
the joined table block is removed from the text (all occurrences). -/
def extractTableData (text : List Char) : Option (String × StructuredItem) :=
  let tableLines := collectTableLines (splitLines text) false
  if 3 ≤ tableLines.length then
    let rows := tableLines.map tableRowCells
    let headers := rows.headD []
    let dataRows := (rows.drop 2).filter fun row =>
      !(row.all fun cell => containsChars cell.data ['-'])
    if dataRows.all (fun row => headers.length ≤ row.length) then
      let tableData := dataRows.map fun row => dictOfPairs (headers.zip row)
      if tableData.isEmpty then none
      else
        let tableText := joinWithChar '\n' tableLines
        some (String.mk (trimChars (dropAllOccurrences tableText text.length text)),
              .table tableData)
    else none
  else none

/-! ### Card pass (`StructuredDataParser._extract_card_data`)

The pattern `^([A-Z][A-Za-z\s]+?)(?:\s*\[\d+\])?\s*:\s*(.+?)\s*$` with
`re.MULTILINE` is matched anchored at each line start. -/

/-- Match `(?:\s*\[\d+\])?\s*:` after the name group: the optional citation
bracket is preferred when it parses completely, otherwise the pattern falls
back to `\s*:` alone.  Returns the remainder after the colon. -/
def cardAfterName (after : List Char) : Option (List Char) :=
  let tryCit : Option (List Char) :=
    match after.dropWhile isWS with
    | '[' :: r =>
        let ds := r.takeWhile Char.isDigit
        if ds.isEmpty then none else
        match r.drop ds.length with
        | ']' :: r2 =>
            match r2.dropWhile isWS with
            | ':' :: r3 => some r3
            | _ => none
        | _ => none
    | _ => none
  match tryCit with
  | some r => some r
  | none =>
      match after.dropWhile isWS with
      | ':' :: r => some r
      | _ => none

/-- Match `\s*(.+?)\s*$` after the colon: the greedy leading `\s*` is tried
longest first (it may cross newlines), then the lazy value group (which may
not contain a newline) grows until `\s*$` matches the remainder.  Returns
the value group and the remainder at the match end. -/
def cardValueTail (cs : List Char) : Option (String × List Char) :=
  ((List.range ((cs.takeWhile isWS).length + 1)).reverse).findSome? fun w =>
    let r := cs.drop w
    (List.range r.length).findSome? fun m0 =>
      let m := m0 + 1
      let v := r.take m
      if v.all (fun c => c != '\n') then
        match tailWsEnd (r.drop m) with
        | some after => some (String.mk v, after)
        | none => none
      else none

/-- Card pattern attempted at a line start: the first character must be
`[A-Z]`, the lazy name group (characters from `[A-Za-z\s]`, so it may span
lines) grows one character at a time until the rest of the pattern matches.
Returns the name and value groups and the remainder at the match end. -/
def cardMatchAt (cs : List Char) : Option ((String × String) × List Char) :=
  match cs with
  | c0 :: rest =>
      if c0.isUpper then
        (List.range rest.length).findSome? fun m0 =>
          let m := m0 + 1
          let nm := rest.take m
          if nm.all (fun c => c.isAlpha || isWS c) then
            match cardAfterName (rest.drop m) with
            | some afterColon =>
                match cardValueTail afterColon with
                | some (v, after) => some ((String.mk (c0 :: nm), v), after)
                | none => none
            | none => none
          else none
      else none
  | [] => none

/-- The card-removal pattern
`^{name}(?:\s*\[\d+\])?\s*:\s*{value}\s*$` attempted at a line start: the
literal name, a preferred optional citation bracket, colon, literal value,
then `\s*$`.  Returns the remainder at the match end. -/
def cardRemovalMatchAt (name value : List Char) (cs : List Char) : Option (List Char) :=
  if startsWithChars cs name then
    let r0 := cs.drop name.length
    let afterColonTail : List Char → Option (List Char) := fun r2 =>
      (wsLitSplits value r2).findSome? fun r3 => tailWsEnd r3
    let withCit : Option (List Char) :=
      match r0.dropWhile isWS with
      | '[' :: r =>
          let ds := r.takeWhile Char.isDigit
          if ds.isEmpty then none else
          (match r.drop ds.length with
           | ']' :: r2 =>
               (match r2.dropWhile isWS with
                | ':' :: r3 => afterColonTail r3
                | _ => none)
           | _ => none)
      | _ => none
    match withCit with
    | some r => some r
    | none =>
        match r0.dropWhile isWS with
        | ':' :: r2 => afterColonTail r2
        | _ => none
  else none

/-- Apply the card-removal `re.sub` for one match pair. -/
def applyCardRemoval (m : String × String) (text : List Char) : List Char :=
  removalSub (cardRemovalMatchAt m.1.data m.2.data) text.length true text

/-- Embedding of `StructuredDataParser._extract_card_data` (lines 245-286):
at least 2 line matches are required; the card data maps stripped names to
stripped values (later duplicates overwriting); matched lines are stripped
from the text. -/
def extractCardData (text : List Char) : Option (String × StructuredItem) :=
  let ms := anchoredScan cardMatchAt text.length true text
  if 2 ≤ ms.length then
    let cardData := dictOfPairs (ms.map fun m => (pyStrip m.1, pyStrip m.2))
    let cleaned := ms.foldl (fun t m => applyCardRemoval m t) text
    some (String.mk (trimChars cleaned), .card cardData)
  else none

/-! ### Header sections and the top-level parse (`StructuredDataParser.parse`)

`parse` splits the text with
`re.finditer(r'(\*\*([^*]+)\*\*)\s*\n([^\*]+?)(?=\n\s*\n|\*\*|$)', text, re.DOTALL)`
and runs chart extraction on each header's section content. -/

/-- Lookahead `(?=\n\s*\n|\*\*|$)`: a blank line (a newline, optional
whitespace, another newline), a bold marker, the end of the text, or the
position just before a final trailing newline. -/
def headerLookaheadOk : List Char → Bool
  | [] => true
  | ['\n'] => true
  | '*' :: '*' :: _ => true
  | '\n' :: rest => (rest.takeWhile isWS).any (fun c => c == '\n')
  | _ => false

/-- Attempt the header pattern anchored at the start of `cs`: `\*\*`, a
maximal non-`*` title (which cannot backtrack, since a shorter title leaves a
non-`*` character where `\*` is required), `\*\*`, then `\s*\n` (the greedy
whitespace run backtracks to end at a newline, latest newline first), then
the lazy non-`*` section content grown until the lookahead holds.  Returns
title group, content group and the remainder of the text at the match end. -/
def matchHeaderAt (cs : List Char) : Option (String × String × List Char) :=
  match cs with
  | '*' :: '*' :: rest1 =>
      let t := rest1.takeWhile (fun c => c != '*')
      if t.isEmpty then none else
      (match rest1.drop t.length with
       | '*' :: '*' :: rest3 =>
           let w := rest3.takeWhile isWS
           (((List.range w.length).filter fun e => w.get? e == some '\n').reverse).findSome?
             fun e =>
               let after := rest3.drop (e + 1)
               (List.range after.length).findSome? fun m0 =>
                 let m := m0 + 1
                 let content := after.take m
                 if content.all (fun c => c != '*') && headerLookaheadOk (after.drop m) then
                   some (String.mk t, String.mk content, after.drop m)
                 else none
       | _ => none)
  | _ => none

/-- The `re.finditer` scan for header sections: on failure advance one
character, on success resume at the match end (which is strictly inside the
consumed text, so a fuel of the text length suffices). -/
def scanHeaders : Nat → List Char → List (String × String)
  | 0, _ => []
  | _, [] => []
  | fuel + 1, cs@(_ :: rest) =>
      match matchHeaderAt cs with
      | some (t, c, after) => (t, c) :: scanHeaders fuel after
      | none => scanHeaders fuel rest

/-- Header sections of a text: `(title, section_content)` raw groups. -/
def headerSections (text : List Char) : List (String × String) :=
  scanHeaders text.length text

namespace StructuredDataParser

/-- Embedding of `StructuredDataParser.parse` (lines 30-91): chart extraction
on each stripped header section (with the chart title replaced by the
stripped header title), then the table pass and the card pass threading one
running cleaned-text copy; the chart pass never touches that copy. -/
def parse (text : String) : String × List StructuredItem :=
  let allCharts := (headerSections text.data).filterMap fun sec =>
    let sectionContent := pyStrip sec.2
    if sectionContent = "" then none
    else
      match extractChartData sectionContent.data with
      | some (_, .chart data cfg) =>
          some (StructuredItem.chart data { cfg with title := pyStrip sec.1 })
      | _ => none
  let afterTable : String × List StructuredItem :=
    match extractTableData text.data with
    | some (c, item) => (c, allCharts ++ [item])
    | none => (text, allCharts)
  match extractCardData afterTable.1.data with
  | some (c, item) => (c, afterTable.2 ++ [item])
  | none => afterTable

end StructuredDataParser

/-! ### Event model (`app/schemas/events.py`) and SSE frames -/

/-- The event union: `ToolStartEvent`, `ToolEndEvent`, `CitationEvent`,
`ContentEvent`, `DoneEvent`, with exactly the fields the pydantic models
declare. -/
inductive Event where
  | toolStart (tool : String) (message : String)
  | toolEnd (tool : String)
  | citation (index : Nat) (url : String) (title : String)
      (snippet : Option String) (pdfId : Option String) (pageNumber : Option Nat)
  | content (chunk : String)
  | done (message : String)
deriving DecidableEq

/-- Pydantic construction of `ToolEndEvent` from keyword arguments
(events.py lines 23-26): the only declared field is the required `tool`;
keyword arguments that do not match a declared field are ignored (the
pydantic default), and a missing required field raises a `ValidationError`
at the construction site. -/
def mkToolEndEvent (kwargs : List (String × String)) : Except String Event :=
  match kwargs.lookup "tool" with
  | some t => Except.ok (.toolEnd t)
  | none => Except.error "ValidationError: ToolEndEvent field tool is required"

/-- One yielded element of `generate_stream_response`: a `format_sse`-framed
event, the raw keepalive comment `": keepalive\n\n"`, or a raw
`structured_data` frame carrying one structured item. -/
inductive SSEFrame where
  | event (e : Event)
  | keepalive
  | structuredData (item : StructuredItem)
deriving DecidableEq

/-- Result of running the `generate_stream_response` async generator: the
frames yielded before it finished or raised, and the exception message when
it raised. -/
structure GenOutput where
  frames : List SSEFrame
  raised : Option String
deriving DecidableEq

/-! ### Tool-decision helpers (`app/routers/chat.py`) -/

/-- Embedding of `should_search` (chat.py lines 45-68). -/
def shouldSearch (message : String) : Bool :=
  let ml := message.data.map Char.toLower
  (["what", "who", "where", "when", "why", "how", "is", "are", "does", "do"].any
      fun w => startsWithChars ml w.data)
  || (["search", "find", "look up", "latest", "news", "current"].any
      fun k => containsChars ml k.data)

/-- Python `word.strip("()[]<>\"',")`: remove those characters from both
ends. -/
def stripPunct (cs : List Char) : List Char :=
  let set : List Char := ['(', ')', '[', ']', '<', '>', '"', Char.ofNat 39, ',']
  ((cs.dropWhile set.contains).reverse.dropWhile set.contains).reverse

/-- Embedding of `extract_pdf_url` (chat.py lines 98-111): the first
whitespace-delimited word containing `".pdf"` whose punctuation-stripped form
starts with `"http"`. -/
def extractPdfUrl (message : String) : Option String :=
  (splitWsWords message.data).findSome? fun word =>
    if endsWithChars word ".pdf".data || containsChars word ".pdf".data then
      let url := stripPunct word
      if startsWithChars url "http".data then some (String.mk url) else none
    else none

/-! ### Collaborator result shapes (`app/services/search.py`, `pdf.py`) -/

/-- A search result as typed in `search.py`. -/
structure SearchResult where
  title : String
  url : String
  snippet : String
  score : ℚ
deriving DecidableEq

/-- The `SearchResponse` shape. -/
structure SearchResponse where
  query : String
  results : List SearchResult
  answer : String
deriving DecidableEq

/-- The `PDFContent` shape. -/
structure PDFContent where
  url : String
  title : String
  text : String
  numPages : Nat
deriving DecidableEq

/-- Numbered result blocks of `format_search_context`. -/
def searchContextLines (idx : Nat) : List SearchResult → List String
  | [] => []
  | r :: rs =>
      ("[" ++ toString idx ++ "] " ++ r.title ++ "\nURL: " ++ r.url ++
        "\nContent: " ++ r.snippet ++ "\n") :: searchContextLines (idx + 1) rs

/-- Embedding of `format_search_context` (search.py lines 76-94). -/
def formatSearchContext (r : SearchResponse) : String :=
  String.intercalate "\n"
    (("Search results for: " ++ r.query ++ "\n") :: searchContextLines 1 r.results)

/-- Embedding of `format_pdf_context` (pdf.py lines 96-110). -/
def formatPdfContext (p : PDFContent) : String :=
  "PDF Document: " ++ p.title ++ "\nURL: " ++ p.url ++ "\nPages: " ++
    toString p.numPages ++ "\n\nContent:\n" ++ p.text

/-! ### The response pipeline (`generate_stream_response`, chat.py 114-266)

The generator is embedded as a function of the message and of the outcomes
of its collaborators: the search call (`search_web`), the document call
(`read_pdf`), and the generation stream (the list of fragments it yielded
and whether iterating it raised).  `pdfIdOf` stands for
`hashlib.md5(url.encode()).hexdigest()[:8]`, which is treated as an opaque
string function. -/

/-- Result of one tool phase: yielded frames, the exception that escaped the
phase (if any), the context blocks appended, and the citation counter after
the phase. -/
structure ToolPhase where
  frames : List SSEFrame
  raised : Option String
  context : List String
  citIdx : Nat
deriving DecidableEq

/-- The citation loop of the search step (chat.py lines 154-161): one
`CitationEvent` per result, snippet truncated to 200 characters, index
incremented per emission. -/
def emitSearchCitations (idx : Nat) : List SearchResult → List SSEFrame
  | [] => []
  | r :: rs =>
      .event (.citation idx r.url r.title (some (String.mk (r.snippet.data.take 200))) none none) ::
        emitSearchCitations (idx + 1) rs

/-- Step 1 of the pipeline (chat.py lines 135-171).  On a search failure the
`except` branch evaluates
`ToolEndEvent(tool_name="web_search", result_summary="Search unavailable")`,
whose validation fails (no `tool` keyword), so the exception escapes the
generator. -/
def searchPhase (maxResults : Nat) (message : String)
    (searchOutcome : Except String SearchResponse) : ToolPhase :=
  if shouldSearch message then
    let start := [SSEFrame.event (.toolStart "web_search" "Searching the web...")]
    match searchOutcome with
    | .ok resp =>
        let results := resp.results.take maxResults
        ⟨start ++ [.event (.toolEnd "web_search")] ++ emitSearchCitations 1 results,
         none, [formatSearchContext resp], 1 + results.length⟩
    | .error _ =>
        match mkToolEndEvent [("tool_name", "web_search"), ("result_summary", "Search unavailable")] with
        | .ok e => ⟨start ++ [.event e], none, [], 1⟩
        | .error ve => ⟨start, some ve, [], 1⟩
  else ⟨[], none, [], 1⟩

/-- Step 2 of the pipeline (chat.py lines 173-211): the PDF failure branch
constructs `ToolEndEvent(tool="reading_pdf")` with the correct keyword, so
it emits the end event and continues. -/
def pdfPhase (pdfIdOf : String → String) (message : String)
    (pdfOutcome : Except String PDFContent) (citIdx : Nat) : ToolPhase :=
  match extractPdfUrl message with
  | none => ⟨[], none, [], citIdx⟩
  | some _url =>
      let start := [SSEFrame.event (.toolStart "reading_pdf" "Reading PDF document...")]
      match pdfOutcome with
      | .ok pc =>
          ⟨start ++
            [.event (.toolEnd "reading_pdf"),
             .event (.citation citIdx pc.url pc.title
               (some ("PDF document - " ++ toString pc.numPages ++ " pages"))
               (some (pdfIdOf pc.url)) (some 1))],
           none, [formatPdfContext pc], citIdx + 1⟩
      | .error _ => ⟨start ++ [.event (.toolEnd "reading_pdf")], none, [], citIdx⟩

/-- The content loop of step 4 (chat.py lines 227-234): each generation
fragment is framed as a `ContentEvent`; after every 50th fragment a raw
keepalive comment is emitted. -/
def contentFrames : List String → Nat → List SSEFrame
  | [], _ => []
  | c :: cs, n =>
      .event (.content c) ::
        (if (n + 1) % 50 == 0 then SSEFrame.keepalive :: contentFrames cs (n + 1)
         else contentFrames cs (n + 1))

/-- Steps 4-5 of the pipeline (chat.py lines 222-258): stream the fragments;
if iterating the generation stream raised, emit one error `ContentEvent` and
skip parsing; otherwise, when the accumulated text is non-empty, run the
extractor and emit one `structured_data` frame per item. -/
def llmSection (chunks : List String) (llmRaised : Option String) : List SSEFrame :=
  contentFrames chunks 0 ++
    match llmRaised with
    | some e => [.event (.content ("\n\n[Error: " ++ e ++ "]"))]
    | none =>
        let accumulated := String.join chunks
        if accumulated = "" then []
        else ((StructuredDataParser.parse accumulated).2.map SSEFrame.structuredData)

/-- Embedding of `generate_stream_response`: search phase (aborting if its
exception escapes), PDF phase, the `synthesizing_answer` bracket around the
generation stream, and the final `DoneEvent` (message `"Stream complete"`,
the model default). -/
def generateStreamResponse (maxResults : Nat) (pdfIdOf : String → String)
    (message : String) (searchOutcome : Except String SearchResponse)
    (pdfOutcome : Except String PDFContent)
    (chunks : List String) (llmRaised : Option String) : GenOutput :=
  let s := searchPhase maxResults message searchOutcome
  match s.raised with
  | some e => ⟨s.frames, some e⟩
  | none =>
      let p := pdfPhase pdfIdOf message pdfOutcome s.citIdx
      ⟨s.frames ++ p.frames ++
        [.event (.toolStart "synthesizing_answer" "Generating answer...")] ++
        llmSection chunks llmRaised ++
        [.event (.toolEnd "synthesizing_answer"), .event (.done "Stream complete")],
       none⟩

/-- Indices of the `CitationEvent`s among a frame list, in emission order. -/
def citationIndices : List SSEFrame → List Nat
  | [] => []
  | .event (.citation i _ _ _ _ _) :: rest => i :: citationIndices rest
  | _ :: rest => citationIndices rest

/-! ### Generation stage (`LLMService.stream_completion`, llm.py 54-164)

The upstream is modelled as a function from the attempt number (equal to the
current `retry_count`, since only rate-limit failures re-enter the loop) to
an outcome: a successful stream of chunks, a `ResourceExhausted` error
carrying its message string, or any other exception.  Yielded fragments are
tagged by their source line rather than carried as raw f-strings. -/

/-- One chunk of the upstream stream: an optional `text` attribute and an
optional first-candidate `finish_reason`. -/
structure GenChunk where
  text : Option String := none
  finishReason : Option Nat := none
deriving DecidableEq

/-- Outcome of one `generate_content_async` attempt (including iterating the
returned stream). -/
inductive AttemptOutcome where
  | success (chunks : List GenChunk)
  | rateLimited (errorMsg : String)
  | otherError (errorMsg : String)
deriving DecidableEq

/-- The fragments `stream_completion` can yield, each tagged with the source
site: plain content (llm.py 107), the safety-block notice (117), the
truncation notice (122), the unexpected-finish notice (127), the retry
notice with its wait time (153), the rate-limit terminal error (157) and the
generic terminal error (163). -/
inductive Fragment where
  | content (s : String)
  | blockedNotice
  | truncatedNotice
  | unexpectedFinishNotice (reason : Nat)
  | retryNotice (waitSeconds : ℚ)
  | rateLimitTerminal
  | genericErrorTerminal
deriving DecidableEq

/-- Fragments produced for one non-text chunk (llm.py 108-127): the branch
runs only for a truthy `finish_reason`; reason 3 without prior content
yields the blocked notice, reason 2 with prior content the truncation
notice, any other non-1 reason with prior content the generic notice. -/
def finishFragments (hasContent : Bool) (c : GenChunk) : List Fragment :=
  match c.finishReason with
  | some r =>
      if r != 0 then
        if r == 3 then (if !hasContent then [.blockedNotice] else [])
        else if r == 2 then (if hasContent then [.truncatedNotice] else [])
        else if r != 1 then (if hasContent then [.unexpectedFinishNotice r] else [])
        else []
      else []
  | none => []

/-- The `async for chunk in response` loop (llm.py 102-127): a chunk with
non-empty text is yielded and sets `has_content`; otherwise the
finish-reason branch runs. -/
def processChunks : List GenChunk → Bool → List Fragment
  | [], _ => []
  | c :: rest, hasContent =>
      match c.text with
      | some s =>
          if s == "" then finishFragments hasContent c ++ processChunks rest hasContent
          else .content s :: processChunks rest true
      | none => finishFragments hasContent c ++ processChunks rest hasContent

/-- Search for `re.search(r'seconds:\s*(\d+)', s)`: the first position where
the literal `seconds:` is followed by optional whitespace and at least one
digit. -/
def searchSeconds : List Char → Option Nat
  | [] => none
  | c :: rest =>
      (if startsWithChars (c :: rest) "seconds:".data then
        let r := ((c :: rest).drop 8).dropWhile isWS
        let ds := r.takeWhile Char.isDigit
        if ds.isEmpty then searchSeconds rest else some (digitsToNat ds)
      else searchSeconds rest)

/-- The wait-time computation of the rate-limit branch (llm.py 137-149):
exponential backoff `base_delay * 2 ** retry_count` with `base_delay = 1.0`
(using the already-incremented count), overridden by a parsed
`retry_delay { seconds: n }` hint when the error message carries one. -/
def rlWaitTime (errorMsg : String) (retryCount : Nat) : ℚ :=
  let backoff : ℚ := 1 * 2 ^ retryCount
  if containsSubstr errorMsg "retry_delay" && containsSubstr errorMsg "seconds:" then
    match searchSeconds errorMsg.data with
    | some n => (n : ℚ)
    | none => backoff
  else backoff

/-- The retry loop of `stream_completion` (llm.py 94-164), entered with the
current `retry_count`: on success the chunk loop runs and the generator
returns; on a non-rate-limit error one generic terminal fragment is yielded
and the generator returns; on a rate-limit error the count is incremented
and either a retry notice is yielded and the loop re-entered, or (when
retries are exhausted) the rate-limit terminal fragment is yielded. -/
def streamCompletionFrom (maxRetries : Nat) (attempt : Nat → AttemptOutcome) :
    Nat → Nat → List Fragment
  | 0, _ => []
  | fuel + 1, retryCount =>
    if retryCount ≤ maxRetries then
      match attempt retryCount with
      | .success chunks => processChunks chunks false
      | .otherError _ => [.genericErrorTerminal]
      | .rateLimited e =>
          let rc := retryCount + 1
          if rc ≤ maxRetries then
            .retryNotice (rlWaitTime e rc) :: streamCompletionFrom maxRetries attempt fuel rc
          else [.rateLimitTerminal]
    else []

/-- Embedding of `stream_completion`: the loop starts at `retry_count = 0`.
The fuel `maxRetries + 1` dominates the number of loop iterations, each of
which strictly increases `retry_count` while the guard keeps it at most
`maxRetries`, so the fuel never runs out on the paths the code can take. -/
def streamCompletion (maxRetries : Nat) (attempt : Nat → AttemptOutcome) : List Fragment :=
  streamCompletionFrom maxRetries attempt (maxRetries + 1) 0

/-! ### Job queue manager (`QueueManager`, queue.py)

The per-job behaviour of the worker loop, the consumer stream and the job
registry are embedded separately; asyncio concurrency is modelled by the
sequential composition the single event loop and the `_lock` critical
section enforce. -/

/-- The four `QueueJob.status` values. -/
inductive JobStatus where
  | queued
  | processing
  | completed
  | failed
deriving DecidableEq

/-- One entry on a job's `result_queue`: a forwarded data chunk, the
`("done", None)` terminal, or an `("error", msg)` terminal. -/
inductive ChannelEntry where
  | data (chunk : SSEFrame)
  | done
  | error (msg : String)
deriving DecidableEq

/-- Terminal entries are `done` and `error`. -/
def ChannelEntry.isTerminal : ChannelEntry → Bool
  | .data _ => false
  | .done => true
  | .error _ => true

/-- What the worker does to one dequeued job (queue.py lines 120-142): the
channel entries it pushes and the status values it assigns, in order. -/
structure WorkerJobRun where
  entries : List ChannelEntry
  statusWrites : List JobStatus
deriving DecidableEq

/-- Embedding of the per-job section of `_worker`: set `processing`, forward
every pipeline frame as a data entry; when the pipeline generator completes,
push `done` and set `completed`; when iterating it raises, push one `error`
entry carrying `f"Error: {type(e).__name__}: {str(e)}"` (modelled as the
raised message prefixed by `"Error: "`) and set `failed`. -/
def workerProcessJob (pipe : GenOutput) : WorkerJobRun :=
  match pipe.raised with
  | none => ⟨pipe.frames.map ChannelEntry.data ++ [.done], [.processing, .completed]⟩
  | some e => ⟨pipe.frames.map ChannelEntry.data ++ [.error ("Error: " ++ e)],
               [.processing, .failed]⟩

/-- Status-transition discipline as the specification states it:
queued→processing and processing→{completed, failed} only. -/
def specAllowedTransition : JobStatus → JobStatus → Bool
  | .queued, .processing => true
  | .processing, .completed => true
  | .processing, .failed => true
  | _, _ => false

/-- A status sequence follows the allowed transition relation stepwise. -/
def chainOk : List JobStatus → Bool
  | a :: b :: rest => specAllowedTransition a b && chainOk (b :: rest)
  | _ => true

/-- Clock model of the rate-limit critical section (queue.py lines 109-118):
entering at clock reading `entryTime` with stored `lastTime`, the worker
computes `time_since_last`; when it is below `minInterval` it sleeps the
deficit (the sleep returning no earlier than requested); it then stores a
fresh clock reading as the new last-dispatch time.  `slack` bundles the
non-negative extra delay of the sleep and of the final clock read. -/
def rateLimitStep (minInterval lastTime entryTime slack : ℚ) : ℚ :=
  let timeSinceLast := entryTime - lastTime
  if timeSinceLast < minInterval then entryTime + (minInterval - timeSinceLast) + slack
  else entryTime + slack

/-- The consumer-side wait bound of `stream_results`
(`asyncio.wait_for(..., timeout=300)`, queue.py line 178). -/
def streamReadTimeout : Nat := 300

/-- Outcome of one bounded wait on the result channel: the next entry, or a
timeout after `streamReadTimeout` seconds. -/
inductive ReadResult where
  | entry (e : ChannelEntry)
  | timeout
deriving DecidableEq

/-- One element yielded by `stream_results`: a status notice, a forwarded
data chunk, the done marker, or an error. -/
inductive StreamItem where
  | status (msg : String)
  | data (chunk : SSEFrame)
  | done
  | error (msg : String)
deriving DecidableEq

/-- Channel entries are yielded verbatim as `(event_type, data)` tuples. -/
def ChannelEntry.toItem : ChannelEntry → StreamItem
  | .data c => .data c
  | .done => .done
  | .error m => .error m

/-- The consumer loop of `stream_results` (queue.py lines 174-188): each
bounded wait either times out (yield one `("error", "Request timeout")` and
stop) or yields the received entry, stopping after a terminal one. -/
def consumeLoop : List ReadResult → List StreamItem
  | [] => []
  | .timeout :: _ => [.error "Request timeout"]
  | .entry e :: rest =>
      e.toItem :: (if e.isTerminal then [] else consumeLoop rest)

/-- The registry view `stream_results` reads: the job's current status and
the approximate queue position `get_queue_position` reports (the dispatch
queue length). -/
structure JobView where
  status : JobStatus
  queuePosition : Nat
deriving DecidableEq

/-- Embedding of `stream_results` (queue.py lines 148-188): an unknown job
yields a single `("error", "Job not found")`; a job still queued first
yields `("status", "queued:<position>")`; then the consumer loop runs. -/
def streamResults (job : Option JobView) (reads : List ReadResult) : List StreamItem :=
  match job with
  | none => [.error "Job not found"]
  | some j =>
      (if j.status = .queued then [.status ("queued:" ++ toString j.queuePosition)] else [])
        ++ consumeLoop reads

/-- Python dict assignment `self.jobs[job_id] = job`: an existing key keeps
its position and gets the new value, a new key is appended. -/
def setJob (jobs : List (String × JobStatus)) (id : String) (s : JobStatus) :
    List (String × JobStatus) :=
  if jobs.any (fun p => p.1 == id) then jobs.map (fun p => if p.1 == id then (id, s) else p)
  else jobs ++ [(id, s)]

/-- The operations that touch the `self.jobs` registry: `enqueue` inserts a
queued job (queue.py line 84), `get_job_status` only reads (200-212), the
worker mutates the status field of an existing job in place (121, 134, 141),
and the tail of `stream_results` deletes the entry after the grace sleep
(190-193). -/
inductive QMOp where
  | enqueue (jobId : String)
  | getStatus (jobId : String)
  | workerSetStatus (jobId : String) (s : JobStatus)
  | streamCleanup (jobId : String)
deriving DecidableEq

/-- Effect of each operation on the registry (keyed by job id, tracking the
status field). -/
def applyOp (jobs : List (String × JobStatus)) : QMOp → List (String × JobStatus)
  | .enqueue id => setJob jobs id .queued
  | .getStatus _ => jobs
  | .workerSetStatus id s => jobs.map (fun p => if p.1 == id then (id, s) else p)
  | .streamCleanup id => jobs.filter (fun p => p.1 != id)

/-- Registry membership. -/
def hasJob (jobs : List (String × JobStatus)) (id : String) : Bool :=
  jobs.any (fun p => p.1 == id)

/-- Cleaned text after the table pass alone: the strip the pass performs, or
the unchanged text when it finds nothing. -/
def tableCleaned (t : String) : String :=
  match extractTableData t.data with
  | some (c, _) => c
  | none => t

/-- Cleaned text after the card pass alone. -/
def cardCleaned (t : String) : String :=
  match extractCardData t.data with
  | some (c, _) => c
  | none => t

/-- Unit conversion as the specification words it: `K` multiplies the parsed
number by 1e3, `M` by 1e6, `B` by 1e9, and `%` leaves the raw number
unchanged (stated for comparison with the code's conversion). -/
def specUnitValue (v : String) (u : String) : ℚ :=
  if u = "K" then parseFloatQ v * 1000
  else if u = "M" then parseFloatQ v * 1000000
  else if u = "B" then parseFloatQ v * 1000000000
  else parseFloatQ v

/-! ### Helper lemmas -/

instance instDecidableEqExcept {ε α : Type} [DecidableEq ε] [DecidableEq α] :
    DecidableEq (Except ε α) := fun x y =>
  match x, y with
  | .ok a, .ok b =>
      if h : a = b then isTrue (by rw [h]) else isFalse (fun hc => by cases hc; exact h rfl)
  | .error a, .error b =>
      if h : a = b then isTrue (by rw [h]) else isFalse (fun hc => by cases hc; exact h rfl)
  | .ok _, .error _ => isFalse (fun hc => by cases hc)
  | .error _, .ok _ => isFalse (fun hc => by cases hc)

/-- With at least 3 line-anchored matches, chart extraction succeeds on them. -/
theorem extractChartData_of_multiline (cs : List Char)
    (h : 3 ≤ (multilineChartMatches cs).length) :
    extractChartData cs =
      some (String.mk (trimChars
              ((multilineChartMatches cs).foldl (fun t m => applyChartRemoval m t) cs)),
            .chart ((multilineChartMatches cs).map fun m =>
                ChartPoint.mk (pyStrip m.1) (parseFloatQ m.2.1 * unitMultiplier m.2.2))
              chartDefaultConfig) := by
  unfold extractChartData
  have h' : ¬ (multilineChartMatches cs).length < 3 := by omega
  simp [h', h]

/-- With fewer than 3 line-anchored matches but at least 3 inline matches,
chart extraction succeeds on the inline matches. -/
theorem extractChartData_of_inline (cs : List Char)
    (h1 : (multilineChartMatches cs).length < 3)
    (h2 : 3 ≤ (inlineChartMatches cs).length) :
    extractChartData cs =
      some (String.mk (trimChars
              ((inlineChartMatches cs).foldl (fun t m => applyChartRemoval m t) cs)),
            .chart ((inlineChartMatches cs).map fun m =>
                ChartPoint.mk (pyStrip m.1) (parseFloatQ m.2.1 * unitMultiplier m.2.2))
              chartDefaultConfig) := by
  unfold extractChartData
  simp [h1, h2]

/-- With fewer than 3 matches from both patterns, chart extraction fails. -/
theorem extractChartData_none (cs : List Char)
    (h1 : (multilineChartMatches cs).length < 3)
    (h2 : (inlineChartMatches cs).length < 3) :
    extractChartData cs = none := by
  unfold extractChartData
  have h2' : ¬ 3 ≤ (inlineChartMatches cs).length := by omega
  have h1' : ¬ 3 ≤ (multilineChartMatches cs).length := by omega
  simp [h1, h2', h1']

/-- Unfolding of the retry loop when every attempt is rate-limited. -/
theorem streamCompletionFrom_allRL (maxRetries : Nat) (e : String) :
    ∀ (d rc : Nat), rc + d = maxRetries →
      streamCompletionFrom maxRetries (fun _ => .rateLimited e) (d + 1) rc
        = ((List.range d).map fun i => Fragment.retryNotice (rlWaitTime e (rc + 1 + i)))
            ++ [.rateLimitTerminal] := by
  intro d
  induction d with
  | zero =>
      intro rc h
      unfold streamCompletionFrom
      have h1 : rc ≤ maxRetries := by omega
      have h2 : ¬ rc + 1 ≤ maxRetries := by omega
      simp [h1, h2]
  | succ d ih =>
      intro rc h
      unfold streamCompletionFrom
      have h1 : rc ≤ maxRetries := by omega
      have h2 : rc + 1 ≤ maxRetries := by omega
      have ihr := ih (rc + 1) (by omega)
      simp only [h1, if_true, h2, ihr]
      rw [List.range_succ_eq_map, List.map_cons, List.map_map]
      have hfun : ((fun i => Fragment.retryNotice (rlWaitTime e (rc + 1 + i))) ∘ Nat.succ)
          = (fun i => Fragment.retryNotice (rlWaitTime e (rc + 1 + 1 + i))) := by
        funext i
        simp only [Function.comp_apply]
        congr 2
        omega
      rw [hfun]
      simp

/-- Unfolding of the retry loop when `d` rate-limited attempts precede a
non-rate-limit failure. -/
theorem streamCompletionFrom_prefixRL (maxRetries : Nat)
    (att : Nat → AttemptOutcome) (es : Nat → String) (m : String) :
    ∀ (d rc fuel : Nat), d + 1 ≤ fuel → rc + d ≤ maxRetries →
      (∀ j, j < d → att (rc + j) = .rateLimited (es (rc + j))) →
      att (rc + d) = .otherError m →
      streamCompletionFrom maxRetries att fuel rc
        = ((List.range d).map fun i =>
              Fragment.retryNotice (rlWaitTime (es (rc + i)) (rc + 1 + i)))
            ++ [.genericErrorTerminal] := by
  intro d
  induction d with
  | zero =>
      intro rc fuel hfuel hle _hrl hother
      match fuel, hfuel with
      | f + 1, _ =>
        unfold streamCompletionFrom
        have h1 : rc ≤ maxRetries := by omega
        simp only [Nat.add_zero] at hother
        simp [h1, hother]
  | succ d ih =>
      intro rc fuel hfuel hle hrl hother
      match fuel, hfuel with
      | f + 1, _ =>
        unfold streamCompletionFrom
        have h1 : rc ≤ maxRetries := by omega
        have h2 : rc + 1 ≤ maxRetries := by omega
        have h0 : att rc = .rateLimited (es rc) := by
          have := hrl 0 (by omega)
          simpa using this
        have ihr := ih (rc + 1) f (by omega) (by omega)
          (fun j hj => by
            have hj' := hrl (j + 1) (by omega)
            have hidx : rc + (j + 1) = rc + 1 + j := by omega
            rw [hidx] at hj'
            exact hj')
          (by
            have hidx : rc + (d + 1) = rc + 1 + d := by omega
            rw [hidx] at hother
            exact hother)
        simp only [h1, if_true, h0, h2, ihr]
        rw [List.range_succ_eq_map, List.map_cons, List.map_map]
        have hfun : ((fun i => Fragment.retryNotice (rlWaitTime (es (rc + i)) (rc + 1 + i))) ∘ Nat.succ)
            = (fun i => Fragment.retryNotice (rlWaitTime (es (rc + 1 + i)) (rc + 1 + 1 + i))) := by
          funext i
          simp only [Function.comp_apply]
          have e1 : rc + (i + 1) = rc + 1 + i := by omega
          have e2 : rc + 1 + (i + 1) = rc + 1 + 1 + i := by omega
          rw [e1, e2]
        rw [hfun]
        simp

/-- Builds of `ToolEndEvent` with the stale keyword names used in the search
failure branch fail validation. -/
theorem mkToolEndEvent_stale :
    mkToolEndEvent [("tool_name", "web_search"), ("result_summary", "Search unavailable")]
      = .error "ValidationError: ToolEndEvent field tool is required" := by
  decide

/-- Citation indices distribute over frame concatenation. -/
theorem citationIndices_append (a b : List SSEFrame) :
    citationIndices (a ++ b) = citationIndices a ++ citationIndices b := by
  induction a with
  | nil => simp [citationIndices]
  | cons f rest ih =>
      cases f with
      | event e =>
          cases e with
          | citation i url title sn pid pn => simp [citationIndices, ih]
          | toolStart t m => simp [citationIndices, ih]
          | toolEnd t => simp [citationIndices, ih]
          | content c => simp [citationIndices, ih]
          | done m => simp [citationIndices, ih]
      | keepalive => simp [citationIndices, ih]
      | structuredData it => simp [citationIndices, ih]

/-- The search citation loop emits consecutive indices from its start. -/
theorem citationIndices_emitSearchCitations (rs : List SearchResult) :
    ∀ k, citationIndices (emitSearchCitations k rs) = List.range' k rs.length := by
  induction rs with
  | nil => intro k; simp [emitSearchCitations, citationIndices]
  | cons r rs ih =>
      intro k
      rw [emitSearchCitations, citationIndices, ih (k + 1)]
      simp [List.range'_succ]

/-- Content frames carry no citations. -/
theorem citationIndices_contentFrames (cs : List String) :
    ∀ n, citationIndices (contentFrames cs n) = [] := by
  induction cs with
  | nil => intro n; simp [contentFrames, citationIndices]
  | cons c cs ih =>
      intro n
      rw [contentFrames]
      by_cases h : ((n + 1) % 50 == 0) = true
      · rw [if_pos h]
        rw [citationIndices, citationIndices, ih (n + 1)]
        all_goals (intros; simp_all)
      · rw [if_neg h]
        rw [citationIndices, ih (n + 1)]
        all_goals (intros; simp_all)

/-- Structured-data frames carry no citations. -/
theorem citationIndices_structuredData (l : List StructuredItem) :
    citationIndices (l.map SSEFrame.structuredData) = [] := by
  induction l with
  | nil => simp [citationIndices]
  | cons x l ih =>
      rw [List.map_cons, citationIndices, ih]
      all_goals (intros; simp_all)

/-- The generation section of the pipeline emits no citations. -/
theorem citationIndices_llmSection (chunks : List String) (raised : Option String) :
    citationIndices (llmSection chunks raised) = [] := by
  unfold llmSection
  rw [citationIndices_append, citationIndices_contentFrames]
  cases raised with
  | some e =>
      rw [citationIndices, citationIndices]
      all_goals (intros; simp_all)
  | none =>
      by_cases h : String.join chunks = ""
      · simp [h, citationIndices]
      · simp only [h, if_neg, if_false]
        rw [citationIndices_structuredData]
        simp

/-- The search phase emits the contiguous citation indices `1..citIdx-1`. -/
theorem searchPhase_citations (mr : Nat) (msg : String)
    (so : Except String SearchResponse) :
    citationIndices (searchPhase mr msg so).frames
        = List.range' 1 ((searchPhase mr msg so).citIdx - 1)
      ∧ 1 ≤ (searchPhase mr msg so).citIdx := by
  unfold searchPhase
  by_cases h : shouldSearch msg
  · simp only [h, if_true]
    cases so with
    | ok resp =>
        constructor
        · rw [citationIndices_append, citationIndices_append,
            citationIndices_emitSearchCitations]
          simp [citationIndices]
        · simp
    | error e =>
        rw [mkToolEndEvent_stale]
        constructor
        · simp [citationIndices]
        · simp
  · simp [h, citationIndices]

/-- The PDF phase continues the citation counter contiguously. -/
theorem pdfPhase_citations (pf : String → String) (msg : String)
    (po : Except String PDFContent) (idx : Nat) :
    citationIndices (pdfPhase pf msg po idx).frames
        = List.range' idx ((pdfPhase pf msg po idx).citIdx - idx)
      ∧ idx ≤ (pdfPhase pf msg po idx).citIdx := by
  unfold pdfPhase
  cases extractPdfUrl msg with
  | none => simp [citationIndices]
  | some u =>
      cases po with
      | ok pc =>
          constructor
          · rw [citationIndices_append]
            simp [citationIndices, List.range'_succ]
          · simp
      | error e => simp [citationIndices]

/-- Data entries are never terminal, filtered form. -/
theorem filter_terminal_map_data (fs : List SSEFrame) :
    (fs.map ChannelEntry.data).filter (fun e => e.isTerminal) = [] := by
  induction fs with
  | nil => simp
  | cons f fs ih => simp [ChannelEntry.isTerminal, ih]

/-- Data entries are never terminal, `all` form. -/
theorem all_nonterminal_map_data (fs : List SSEFrame) :
    (fs.map ChannelEntry.data).all (fun e => !e.isTerminal) = true := by
  induction fs with
  | nil => simp
  | cons f fs ih => simp [ChannelEntry.isTerminal, ih]

/-- A timeout after non-terminal entries yields those entries, then exactly
one timeout error, then nothing. -/
theorem consumeLoop_timeout (pre : List ChannelEntry) (rest : List ReadResult)
    (h : pre.all (fun e => !e.isTerminal) = true) :
    consumeLoop (pre.map .entry ++ .timeout :: rest)
      = pre.map ChannelEntry.toItem ++ [.error "Request timeout"] := by
  induction pre with
  | nil => simp [consumeLoop]
  | cons e pre ih =>
      simp only [List.all_cons, Bool.and_eq_true] at h
      obtain ⟨he, hpre⟩ := h
      have hterm : e.isTerminal = false := by
        revert he; cases e.isTerminal <;> simp
      simp [consumeLoop, hterm, ih hpre]

/-- A terminal entry after non-terminal entries is yielded last and ends the
stream. -/
theorem consumeLoop_terminal (pre : List ChannelEntry) (t : ChannelEntry)
    (rest : List ReadResult)
    (h : pre.all (fun e => !e.isTerminal) = true) (ht : t.isTerminal = true) :
    consumeLoop (pre.map .entry ++ .entry t :: rest)
      = pre.map ChannelEntry.toItem ++ [t.toItem] := by
  induction pre with
  | nil => simp [consumeLoop, ht]
  | cons e pre ih =>
      simp only [List.all_cons, Bool.and_eq_true] at h
      obtain ⟨he, hpre⟩ := h
      have hterm : e.isTerminal = false := by
        revert he; cases e.isTerminal <;> simp
      simp [consumeLoop, hterm, ih hpre]

/-- In-place status update of an existing key preserves registry keys. -/
theorem hasJob_map_set (jobs : List (String × JobStatus)) (id : String) (s : JobStatus)
    (j : String) :
    hasJob (jobs.map fun p => if p.1 == id then (id, s) else p) j = hasJob jobs j := by
  induction jobs with
  | nil => rfl
  | cons p rest ih =>
      by_cases hp : p.1 == id
      · have hid : p.1 = id := beq_iff_eq.mp hp
        subst hid
        simp only [List.map_cons, hp, if_true, hasJob, List.any_cons] at *
        rw [ih]
      · simp only [List.map_cons, hp, if_false, Bool.false_eq_true, ite_false,
          hasJob, List.any_cons] at *
        rw [ih]

/-- Deleting a different key preserves membership of `j`. -/
theorem hasJob_filter_ne (jobs : List (String × JobStatus)) (id j : String)
    (hne : j ≠ id) :
    hasJob (jobs.filter fun p => p.1 != id) j = hasJob jobs j := by
  induction jobs with
  | nil => rfl
  | cons p rest ih =>
      by_cases hp : p.1 == id
      · have hid : p.1 = id := beq_iff_eq.mp hp
        have hj : (p.1 == j) = false := by
          rw [hid]
          exact beq_eq_false_iff_ne.mpr fun h => hne h.symm
        rw [List.filter_cons_of_neg (by simp [bne, hp])]
        rw [ih]
        simp only [hasJob, List.any_cons, hj]
        simp
      · rw [List.filter_cons_of_pos (by simp [bne, hp])]
        simp only [hasJob, List.any_cons] at *
        rw [ih]

/-- Deleting key `j` removes it from the registry. -/
theorem hasJob_filter_self (jobs : List (String × JobStatus)) (j : String) :
    hasJob (jobs.filter fun p => p.1 != j) j = false := by
  induction jobs with
  | nil => rfl
  | cons p rest ih =>
      by_cases hp : p.1 == j
      · rw [List.filter_cons_of_neg (by simp [bne, hp])]
        exact ih
      · rw [List.filter_cons_of_pos (by simp [bne, hp])]
        simp only [hasJob, List.any_cons, hp] at *
        simp [ih]

/-- Dict insertion preserves membership of existing keys. -/
theorem hasJob_setJob (jobs : List (String × JobStatus)) (id : String) (s : JobStatus)
    (j : String) (h : hasJob jobs j = true) :
    hasJob (setJob jobs id s) j = true := by
  unfold setJob
  by_cases hin : jobs.any (fun p => p.1 == id)
  · rw [if_pos hin, hasJob_map_set]
    exact h
  · rw [if_neg hin]
    simp only [hasJob, List.any_append] at *
    rw [h]
    rfl

/-- Any registry operation other than the stream-cleanup of `j` preserves
`j`'s membership. -/
theorem hasJob_applyOp (jobs : List (String × JobStatus)) (j : String) (op : QMOp)
    (h : hasJob jobs j = true) (hop : op ≠ .streamCleanup j) :
    hasJob (applyOp jobs op) j = true := by
  cases op with
  | enqueue id => exact hasJob_setJob _ _ _ _ h
  | getStatus _ => exact h
  | workerSetStatus id s =>
      rw [applyOp, hasJob_map_set]
      exact h
  | streamCleanup id =>
      have hne : j ≠ id := by
        intro he
        subst he
        exact hop rfl
      rw [applyOp, hasJob_filter_ne _ _ _ hne]
      exact h

/-- A job survives any sequence of operations that contains no stream-cleanup
for it. -/
theorem hasJob_foldl (ops : List QMOp) :
    ∀ (jobs : List (String × JobStatus)) (j : String), hasJob jobs j = true →
      (∀ o ∈ ops, o ≠ .streamCleanup j) →
      hasJob (ops.foldl applyOp jobs) j = true := by
  induction ops with
  | nil =>
      intro jobs j h _
      exact h
  | cons op ops ih =>
      intro jobs j h hops
      rw [List.foldl_cons]
      exact ih (applyOp jobs op) j
        (hasJob_applyOp jobs j op h (hops op (List.mem_cons_self op ops)))
        (fun o ho => hops o (List.mem_cons_of_mem _ ho))

/-- The code's unit conversion agrees with the specification's wording. -/
theorem unitConversion_agrees (v u : String) :
    parseFloatQ v * unitMultiplier u = specUnitValue v u := by
  unfold unitMultiplier specUnitValue
  by_cases hK : u = "K"
  · simp [hK]
  · by_cases hM : u = "M"
    · simp [hK, hM]
    · by_cases hB : u = "B"
      · simp [hK, hM, hB]
      · simp [hK, hM, hB]

/-! ### Claim theorems -/

/-- C1: the claim states that a search failure is swallowed, a `ToolEnd`
event for `web_search` is still emitted, and the pipeline continues to
completion.  On the code this is false: for the query `"what is FastAPI?"`
(which triggers search) with a failing search collaborator, the `except`
branch constructs `ToolEndEvent(tool_name=..., result_summary=...)`, whose
required `tool` field is missing, so a `ValidationError` escapes the
generator after only the `ToolStart` frame, and the worker marks the job
failed.  This theorem evaluates the pipeline at that failing input. -/
theorem C1_search_failure_aborts_pipeline :
    shouldSearch "what is FastAPI?" = true
    ∧ mkToolEndEvent [("tool_name", "web_search"), ("result_summary", "Search unavailable")]
        = .error "ValidationError: ToolEndEvent field tool is required"
    ∧ generateStreamResponse 3 (fun _ => "") "what is FastAPI?"
        (.error "Search unavailable") (.error "x") [] none
      = ⟨[.event (.toolStart "web_search" "Searching the web...")],
         some "ValidationError: ToolEndEvent field tool is required"⟩
    ∧ (workerProcessJob (generateStreamResponse 3 (fun _ => "") "what is FastAPI?"
        (.error "Search unavailable") (.error "x") [] none)).statusWrites
      = [.processing, .failed] := by
  refine ⟨by decide, by decide, by decide, by decide⟩

/-- C2: the claim states that the extractor's top-level parse on
`"2020: 100\n2021: 150\n2022: 200"` returns one chart item with the three
data points.  On the code this is false: `parse` only attempts chart
extraction on sections following a `**bold**` header, and this input has
none, so `parse` returns the text unchanged with no items — even though the
chart helper itself does produce exactly the claimed chart on this input,
and produces none on the two-line input. -/
theorem C2_plain_chart_lines_parse_eval :
    StructuredDataParser.parse "2020: 100\n2021: 150\n2022: 200"
      = ("2020: 100\n2021: 150\n2022: 200", [])
    ∧ extractChartData "2020: 100\n2021: 150\n2022: 200".data
      = some ("", .chart [⟨"2020", 100⟩, ⟨"2021", 150⟩, ⟨"2022", 200⟩] chartDefaultConfig)
    ∧ StructuredDataParser.parse "2020: 100\n2021: 150" = ("2020: 100\n2021: 150", [])
    ∧ extractChartData "2020: 100\n2021: 150".data = none := by
  refine ⟨by decide, ?_, by decide, by decide⟩
  have hml : multilineChartMatches "2020: 100\n2021: 150\n2022: 200".data
      = [("2020", "100", ""), ("2021", "150", ""), ("2022", "200", "")] := by decide
  rw [extractChartData_of_multiline _ (by rw [hml]; decide), hml]
  have hclean : String.mk (trimChars
      (([("2020", "100", ""), ("2021", "150", ""), ("2022", "200", "")] :
          List (String × String × String)).foldl (fun t m => applyChartRemoval m t)
        "2020: 100\n2021: 150\n2022: 200".data)) = "" := by decide
  rw [hclean]
  norm_num [pyStrip, trimChars, parseFloatQ, unitMultiplier, digitsToNat]
  constructor <;> decide

/-- C3: with every attempt rate-limited, the generation stage yields exactly
`maxRetries` retry notices (one before each retry) followed by exactly one
rate-limit terminal fragment; a non-rate-limit failure on the attempt after
`k` rate-limited ones stops the stage immediately with one generic terminal
fragment and no further retries (the spec's simulation is the case `k = 0`). -/
theorem C3_generation_retry_protocol :
    ∀ (maxRetries : Nat) (e : String),
      (streamCompletion maxRetries (fun _ => .rateLimited e)
        = ((List.range maxRetries).map fun i => Fragment.retryNotice (rlWaitTime e (i + 1)))
            ++ [.rateLimitTerminal])
      ∧ (∀ (att : Nat → AttemptOutcome) (es : Nat → String) (m : String) (k : Nat),
          k ≤ maxRetries → (∀ j, j < k → att j = .rateLimited (es j)) →
          att k = .otherError m →
          streamCompletion maxRetries att
            = ((List.range k).map fun i => Fragment.retryNotice (rlWaitTime (es i) (i + 1)))
                ++ [.genericErrorTerminal]) := by
  intro maxRetries e
  constructor
  · have h := streamCompletionFrom_allRL maxRetries e maxRetries 0 (by omega)
    have hfun : (fun i => Fragment.retryNotice (rlWaitTime e (0 + 1 + i)))
        = (fun i => Fragment.retryNotice (rlWaitTime e (i + 1))) := by
      funext i
      congr 2
      omega
    rw [streamCompletion, h, hfun]
  · intro att es m k hk hrl hother
    have h := streamCompletionFrom_prefixRL maxRetries att es m k 0 (maxRetries + 1)
      (by omega) (by omega)
      (fun j hj => by simpa using hrl j hj)
      (by simpa using hother)
    have hfun : (fun i => Fragment.retryNotice (rlWaitTime (es (0 + i)) (0 + 1 + i)))
        = (fun i => Fragment.retryNotice (rlWaitTime (es i) (i + 1))) := by
      funext i
      congr 2
      · congr 1
        omega
      · omega
    rw [streamCompletion, h, hfun]

/-- Witness for C3: a non-rate-limit failure on the first attempt terminates
with the single generic error fragment and zero retries. -/
theorem C3_generation_retry_protocol_witness :
    streamCompletion 3 (fun _ => AttemptOutcome.otherError "boom")
      = [.genericErrorTerminal] := by
  have h := (C3_generation_retry_protocol 3 "unused").2
    (fun _ => AttemptOutcome.otherError "boom") (fun _ => "") "boom" 0
    (by omega) (fun j hj => by omega) rfl
  simpa using h

/-- C4: for every pipeline outcome, the worker's status writes follow the
spec's transition chain queued→processing→{completed, failed}, the entries
pushed on the result channel contain exactly one terminal entry, that
terminal entry comes last (done exactly when the pipeline completed, error
exactly when it raised), and nothing follows it. -/
theorem C4_status_monotonic_one_terminal (pipe : GenOutput) :
    chainOk (JobStatus.queued :: (workerProcessJob pipe).statusWrites) = true
    ∧ ((workerProcessJob pipe).entries.filter (fun e => e.isTerminal)).length = 1
    ∧ (∃ pre t, (workerProcessJob pipe).entries = pre ++ [t] ∧ t.isTerminal = true
        ∧ pre.all (fun e => !e.isTerminal) = true)
    ∧ (pipe.raised = none → (workerProcessJob pipe).entries.getLast? = some .done
        ∧ (workerProcessJob pipe).statusWrites = [.processing, .completed])
    ∧ (∀ e, pipe.raised = some e →
        (workerProcessJob pipe).entries.getLast? = some (.error ("Error: " ++ e))
        ∧ (workerProcessJob pipe).statusWrites = [.processing, .failed]) := by
  rcases pipe with ⟨frames, raised⟩
  cases raised with
  | none =>
      refine ⟨?_, ?_, ?_, ?_, ?_⟩
      · simp [workerProcessJob, chainOk, specAllowedTransition]
      · simp [workerProcessJob, List.filter_append, filter_terminal_map_data,
          ChannelEntry.isTerminal]
      · exact ⟨frames.map ChannelEntry.data, .done, by simp [workerProcessJob], rfl,
          all_nonterminal_map_data frames⟩
      · intro _
        simp [workerProcessJob]
      · intro e h
        simp at h
  | some msg =>
      refine ⟨?_, ?_, ?_, ?_, ?_⟩
      · simp [workerProcessJob, chainOk, specAllowedTransition]
      · simp [workerProcessJob, List.filter_append, filter_terminal_map_data,
          ChannelEntry.isTerminal]
      · exact ⟨frames.map ChannelEntry.data, .error ("Error: " ++ msg),
          by simp [workerProcessJob], rfl, all_nonterminal_map_data frames⟩
      · intro h
        simp at h
      · intro e h
        simp at h
        subst h
        simp [workerProcessJob]

/-- Witness for C4 at the empty pipeline outcome. -/
theorem C4_status_monotonic_one_terminal_witness :
    (workerProcessJob ⟨[], none⟩).entries.getLast? = some ChannelEntry.done
    ∧ (workerProcessJob ⟨[], none⟩).statusWrites
      = [JobStatus.processing, JobStatus.completed] :=
  (C4_status_monotonic_one_terminal ⟨[], none⟩).2.2.2.1 rfl

/-- C5: in the clock model of the rate-limit critical section, executed
sequentially under the shared lock with non-negative sleep/read slack, any
two consecutively recorded last-dispatch timestamps differ by at least the
configured minimum interval. -/
theorem C5_min_interval_between_dispatches (I : ℚ) (ts c slack : ℕ → ℚ)
    (hslack : ∀ k, 0 ≤ slack k)
    (hstep : ∀ k, ts (k + 1) = rateLimitStep I (ts k) (c k) (slack k)) :
    ∀ k, I ≤ ts (k + 1) - ts k := by
  intro k
  rw [hstep k]
  unfold rateLimitStep
  by_cases h : c k - ts k < I
  · rw [if_pos h]
    have := hslack k
    linarith
  · rw [if_neg h]
    have h1 := hslack k
    have h2 : I ≤ c k - ts k := by linarith [not_lt.mp h]
    linarith

/-- Witness for C5 with the default 12-second interval and back-to-back
section entries. -/
theorem C5_min_interval_between_dispatches_witness :
    (12 : ℚ) ≤ (fun k : ℕ => 12 * (k : ℚ)) (0 + 1) - (fun k : ℕ => 12 * (k : ℚ)) 0 := by
  have h := C5_min_interval_between_dispatches 12 (fun k : ℕ => 12 * (k : ℚ))
    (fun k : ℕ => 12 * (k : ℚ)) (fun _ => 0) (fun _ => le_refl 0)
    (fun k => by
      unfold rateLimitStep
      norm_num
      ring)
    0
  exact h

/-- C6: `stream_results` yields exactly one error entry for an unknown job;
for a queued job it first yields the status notice with the approximate
position; a timeout after any run of non-terminal entries ends the stream
with exactly one timeout error and nothing after it; a terminal entry is
yielded and ends the stream; and the per-read wait bound is the constant
300 seconds. -/
theorem C6_stream_results_protocol :
    (∀ reads, streamResults none reads = [.error "Job not found"])
    ∧ (∀ (j : JobView) reads, j.status = .queued →
        streamResults (some j) reads
          = .status ("queued:" ++ toString j.queuePosition) :: consumeLoop reads)
    ∧ (∀ (pre : List ChannelEntry) (rest : List ReadResult),
        pre.all (fun e => !e.isTerminal) = true →
        consumeLoop (pre.map .entry ++ .timeout :: rest)
          = pre.map ChannelEntry.toItem ++ [.error "Request timeout"])
    ∧ (∀ (pre : List ChannelEntry) (t : ChannelEntry) (rest : List ReadResult),
        pre.all (fun e => !e.isTerminal) = true → t.isTerminal = true →
        consumeLoop (pre.map .entry ++ .entry t :: rest)
          = pre.map ChannelEntry.toItem ++ [t.toItem])
    ∧ streamReadTimeout = 300 := by
  refine ⟨?_, ?_, ?_, ?_, rfl⟩
  · intro reads; rfl
  · intro j reads hq
    simp [streamResults, hq]
  · exact consumeLoop_timeout
  · exact consumeLoop_terminal

/-- Witness for C6: one data entry, then a timeout. -/
theorem C6_stream_results_protocol_witness :
    consumeLoop ([ChannelEntry.data SSEFrame.keepalive].map ReadResult.entry
        ++ ReadResult.timeout :: [])
      = [ChannelEntry.data SSEFrame.keepalive].map ChannelEntry.toItem
        ++ [StreamItem.error "Request timeout"] :=
  C6_stream_results_protocol.2.2.1 [ChannelEntry.data SSEFrame.keepalive] [] (by decide)

/-- C7: for every message and every collaborator outcome, the citation
indices among the pipeline's emitted frames form the contiguous sequence
`1..K` in emission order, where `K` is their number: the search citations
count up from 1 and the PDF citation continues the same counter. -/
theorem C7_citation_indices_contiguous (maxResults : Nat) (pdfIdOf : String → String)
    (message : String) (searchOutcome : Except String SearchResponse)
    (pdfOutcome : Except String PDFContent)
    (chunks : List String) (llmRaised : Option String) :
    citationIndices (generateStreamResponse maxResults pdfIdOf message searchOutcome
        pdfOutcome chunks llmRaised).frames
      = List.range' 1 (citationIndices (generateStreamResponse maxResults pdfIdOf message
          searchOutcome pdfOutcome chunks llmRaised).frames).length := by
  obtain ⟨hs, hs1⟩ := searchPhase_citations maxResults message searchOutcome
  unfold generateStreamResponse
  rcases hraised : (searchPhase maxResults message searchOutcome).raised with _ | e
  · obtain ⟨hp, hp1⟩ := pdfPhase_citations pdfIdOf message pdfOutcome
      (searchPhase maxResults message searchOutcome).citIdx
    simp only [hraised]
    simp only [citationIndices_append, hs, hp, citationIndices_llmSection]
    have hempty1 : citationIndices
        [SSEFrame.event (.toolStart "synthesizing_answer" "Generating answer...")] = [] := by
      simp [citationIndices]
    have hempty2 : citationIndices [SSEFrame.event (.toolEnd "synthesizing_answer"),
        SSEFrame.event (.done "Stream complete")] = [] := by
      simp [citationIndices]
    rw [hempty1, hempty2]
    set i := (searchPhase maxResults message searchOutcome).citIdx with hi
    set j := (pdfPhase pdfIdOf message pdfOutcome i).citIdx with hj
    have hij : 1 + (i - 1) = i := by omega
    have happ : List.range' 1 (i - 1) ++ List.range' i (j - i)
        = List.range' 1 ((j - i) + (i - 1)) := by
      calc List.range' 1 (i - 1) ++ List.range' i (j - i)
          = List.range' 1 (i - 1) ++ List.range' (1 + (i - 1)) (j - i) := by rw [hij]
        _ = List.range' 1 ((j - i) + (i - 1)) := List.range'_append_1 1 (i - 1) (j - i)
    simp only [List.append_nil, List.append_assoc] at *
    rw [happ]
    simp
  · simp only [hraised]
    rw [hs]
    simp

/-- C8: the chart pass multiplies a matched value by 1000 for unit `K`,
1000000 for `M`, 1000000000 for `B` and leaves `%` (and the empty unit)
unchanged, exactly as the spec words it; a chart is produced only with at
least 3 matches; and when the line-anchored pattern has fewer than 3 matches
the same block is retried with the inline variant before giving up. -/
theorem C8_chart_units_and_inline_retry (cs : List Char) :
    (∀ v u, parseFloatQ v * unitMultiplier u = specUnitValue v u)
    ∧ (3 ≤ (multilineChartMatches cs).length →
        (extractChartData cs).map Prod.snd
          = some (.chart ((multilineChartMatches cs).map fun m =>
              ChartPoint.mk (pyStrip m.1) (specUnitValue m.2.1 m.2.2)) chartDefaultConfig))
    ∧ ((multilineChartMatches cs).length < 3 → 3 ≤ (inlineChartMatches cs).length →
        (extractChartData cs).map Prod.snd
          = some (.chart ((inlineChartMatches cs).map fun m =>
              ChartPoint.mk (pyStrip m.1) (specUnitValue m.2.1 m.2.2)) chartDefaultConfig))
    ∧ ((multilineChartMatches cs).length < 3 → (inlineChartMatches cs).length < 3 →
        extractChartData cs = none) := by
  have hfun : (fun m : String × String × String =>
        ChartPoint.mk (pyStrip m.1) (parseFloatQ m.2.1 * unitMultiplier m.2.2))
      = (fun m : String × String × String =>
        ChartPoint.mk (pyStrip m.1) (specUnitValue m.2.1 m.2.2)) := by
    funext m
    rw [unitConversion_agrees]
  refine ⟨fun v u => unitConversion_agrees v u, ?_, ?_, ?_⟩
  · intro h
    rw [extractChartData_of_multiline cs h]
    simp [hfun]
  · intro h1 h2
    rw [extractChartData_of_inline cs h1 h2]
    simp [hfun]
  · exact extractChartData_none cs

/-- Witness for C8 on a three-line block with `K`, `M` and `%` units. -/
theorem C8_chart_units_and_inline_retry_witness :
    (extractChartData "Revenue: 2K\nUsers: 3M\nShare: 45%".data).map Prod.snd
      = some (.chart ((multilineChartMatches "Revenue: 2K\nUsers: 3M\nShare: 45%".data).map
          fun m => ChartPoint.mk (pyStrip m.1) (specUnitValue m.2.1 m.2.2))
          chartDefaultConfig) :=
  (C8_chart_units_and_inline_retry "Revenue: 2K\nUsers: 3M\nShare: 45%".data).2.1 (by decide)

/-- C9: the cleaned text returned by `parse` is exactly the table pass's
strip followed by the card pass's strip on one running copy (the chart pass
never touches it), and when both passes find nothing the cleaned text is the
input unchanged. -/
theorem C9_cleaned_text_only_table_then_card (t : String) :
    (StructuredDataParser.parse t).1 = cardCleaned (tableCleaned t)
    ∧ ((extractTableData t.data = none ∧ extractCardData t.data = none) →
        (StructuredDataParser.parse t).1 = t) := by
  constructor
  · unfold StructuredDataParser.parse tableCleaned cardCleaned
    cases htab : extractTableData t.data with
    | none =>
        simp only [htab]
        cases hcard : extractCardData t.data with
        | none => simp [hcard]
        | some p => rcases p with ⟨c, item⟩; simp [hcard]
    | some p =>
        rcases p with ⟨c, item⟩
        simp only [htab]
        cases hcard : extractCardData c.data with
        | none => simp [hcard]
        | some q => rcases q with ⟨c2, item2⟩; simp [hcard]
  · rintro ⟨h1, h2⟩
    unfold StructuredDataParser.parse
    simp [h1, h2]

/-- Witness for C9 on a text with no table and no card. -/
theorem C9_cleaned_text_only_table_then_card_witness :
    (StructuredDataParser.parse "hello").1 = "hello" :=
  (C9_cleaned_text_only_table_then_card "hello").2 ⟨by decide, by decide⟩

/-- C10: a job present in the registry survives every operation except the
stream-cleanup for its own id — enqueue, status queries and the worker's
status writes never delete entries — the stream-cleanup of its id removes
it, and a job survives indefinitely under any operation sequence that never
contains its own stream-cleanup. -/
theorem C10_only_stream_cleanup_removes_jobs (jobs : List (String × JobStatus))
    (j : String) (h : hasJob jobs j = true) :
    (∀ op : QMOp, op ≠ .streamCleanup j → hasJob (applyOp jobs op) j = true)
    ∧ hasJob (applyOp jobs (.streamCleanup j)) j = false
    ∧ (∀ ops : List QMOp, (∀ o ∈ ops, o ≠ .streamCleanup j) →
        hasJob (ops.foldl applyOp jobs) j = true) := by
  refine ⟨fun op hop => hasJob_applyOp jobs j op h hop, ?_,
    fun ops hops => hasJob_foldl ops jobs j h hops⟩
  rw [applyOp]
  exact hasJob_filter_self jobs j

/-- Witness for C10: the stream-cleanup of the only job removes it. -/
theorem C10_only_stream_cleanup_removes_jobs_witness :
    hasJob (applyOp [("a", JobStatus.queued)] (.streamCleanup "a")) "a" = false :=
  (C10_only_stream_cleanup_removes_jobs [("a", JobStatus.queued)] "a" (by decide)).2.1

end AISearch
